import Mathlib

/-!
Shallow embedding of `berny.py` (pyberny): a quasi-Newton molecular geometry
relaxation engine.  Python floats are modelled as real numbers, numpy vectors
as functions `Fin n → ℝ` and numpy square matrices as `Matrix (Fin n) (Fin n) ℝ`.
External collaborators that live outside `berny.py` (the `Math` kernel, the
coordinate adapter and numpy's eigensolvers) are either modelled from the spec
or taken as explicit parameters of the embedded functions.
-/

open Matrix

noncomputable section

namespace Berny

/-- Vectors: one-dimensional numpy arrays of floats. -/
abbrev Vec (n : ℕ) := Fin n → ℝ

/-- Square matrices of floats. -/
abbrev Mat (n : ℕ) := Matrix (Fin n) (Fin n) ℝ

/-- Modelled from the spec: `Math.rms`, the RMS of a vector
(LinearAlgebraKernel, §2/§6); the `Math` module is not under `src/`. -/
def rms {n : ℕ} (v : Vec n) : ℝ := Real.sqrt ((∑ i, v i ^ 2) / n)

/-- Modelled from the spec: `numpy.linalg.norm`, the Euclidean norm of a
vector (the spec's `‖·‖`, §3 TrustRadius). -/
def vnorm {n : ℕ} (v : Vec n) : ℝ := Real.sqrt (∑ i, v i ^ 2)

/-- The value `np.max(abs(v))` of a nonempty vector. -/
def vmaxAbs {n : ℕ} [NeZero n] (v : Vec n) : ℝ :=
  Finset.univ.sup' Finset.univ_nonempty fun i => |v i|

/-- The recognized numeric configuration options (berny.py `defaults`);
the optional `debug` trace-file path is I/O and is modelled separately. -/
structure Params where
  gradientmax : ℝ
  gradientrms : ℝ
  stepmax : ℝ
  steprms : ℝ
  maxsteps : ℕ
  trust : ℝ

/-- Embeds berny.py `defaults` (lines 16–24). -/
def defaults : Params where
  gradientmax := 0.45e-3
  gradientrms := 0.3e-3
  stepmax := 1.8e-3
  steprms := 1.2e-3
  maxsteps := 100
  trust := 0.3

/-- Embeds berny.py `update_hessian` (lines 107–112): the BFGS update
`dH = outer(dg,dg)/(dq·dg) − H·outer(dq,dq)·H/(dq·H·dq)` followed by the
in-place assignment `H[:, :] = H + dH`, modelled as returning the new matrix.
The source performs both divisions unconditionally: it checks neither
denominator and has no error path. -/
def update_hessian {n : ℕ} (H : Mat n) (dq dg : Vec n) : Mat n :=
  H + ((dq ⬝ᵥ dg)⁻¹ • vecMulVec dg dg
    - (dq ⬝ᵥ H.mulVec dq)⁻¹ • (H * vecMulVec dq dq * H))

/-- Modelled from the spec: the HessianUpdater contract of §4.2/§7, which
fails with `DegenerateUpdate` when `Δq·Δg == 0` or `Δq·H·Δq == 0`, both
checked before dividing. -/
def update_hessianChecked {n : ℕ} (H : Mat n) (dq dg : Vec n) :
    Except String (Mat n) :=
  if dq ⬝ᵥ dg = 0 ∨ dq ⬝ᵥ H.mulVec dq = 0 then Except.error "DegenerateUpdate"
  else Except.ok (update_hessian H dq dg)

/-- Embeds berny.py `update_trust` (lines 115–126). -/
def update_trust {n : ℕ} (trust dE dE_predicted : ℝ) (dq : Vec n) : ℝ :=
  let r := if dE ≠ 0 then dE / dE_predicted else 1
  if r < 0.25 then vnorm dq / 4
  else if r > 0.75 ∧ |vnorm dq - trust| < 1e-10 then 2 * trust
  else trust

/-- The TrustController policy in the words of the spec (§4.3): Fletcher's
ratio `r = ΔE_actual/ΔE_predicted`, except `r := 1` when `ΔE_actual == 0`;
`r < 0.25` shrinks to `‖Δq‖/4`; `r > 0.75` together with
`|‖Δq‖ − trust| < 1e-10` doubles the radius; otherwise unchanged. -/
def TrustControllerSpec {n : ℕ} (trust dE dE_predicted : ℝ) (dq : Vec n) : ℝ :=
  let r := if dE = 0 then 1 else dE / dE_predicted
  if r < 0.25 then vnorm dq / 4
  else if r > 0.75 ∧ |vnorm dq - trust| < 1e-10 then 2 * trust
  else trust

/-- Embeds berny.py `linear_search` (lines 129–150).  `Math.fit_quartic` and
`Math.fit_cubic` are not under `src/`; they are taken as parameters returning
`none` for a failed fit (the source's `t is None`) and otherwise the fitted
extremum `(t, E)`. -/
def linear_search (fit_quartic fit_cubic : ℝ → ℝ → ℝ → ℝ → Option (ℝ × ℝ))
    (E0 E1 g0 g1 : ℝ) : ℝ × ℝ :=
  let fallback : ℝ × ℝ := if E0 ≤ E1 then (0, E0) else (1, E1)
  let cubic : ℝ × ℝ :=
    match fit_cubic E0 E1 g0 g1 with
    | none => fallback
    | some (t, E) => if t < 0 ∨ t > 1 then fallback else (t, E)
  match fit_quartic E0 E1 g0 g1 with
  | none => cubic
  | some (t, E) => if t < -1 ∨ t > 2 then cubic else (t, E)

/-- The LineSearchInterpolator contract in the words of the spec (§4.5):
the quartic extremum exactly when the quartic fit succeeds with `t ∈ [-1, 2]`;
otherwise the cubic extremum exactly when the cubic fit succeeds with
`t ∈ [0, 1]`; otherwise `(0, E0)` when `E0 ≤ E1` and `(1, E1)` when `E0 > E1`. -/
def LineSearchSpec (fit_quartic fit_cubic : ℝ → ℝ → ℝ → ℝ → Option (ℝ × ℝ))
    (E0 E1 g0 g1 : ℝ) : ℝ × ℝ :=
  let fallback : ℝ × ℝ := if E0 ≤ E1 then (0, E0) else (1, E1)
  let cubic : ℝ × ℝ :=
    match fit_cubic E0 E1 g0 g1 with
    | none => fallback
    | some (t, E) => if 0 ≤ t ∧ t ≤ 1 then (t, E) else fallback
  match fit_quartic E0 E1 g0 g1 with
  | none => cubic
  | some (t, E) => if -1 ≤ t ∧ t ≤ 2 then (t, E) else cubic

/-- The results of the external eigensolvers and root finder used by
`quadratic_step` (numpy's `eigvalsh`, `eigh`, `solve` and `Math.findroot`,
none of which are under `src/`): they are parameters of the embedding.
`eigh` returns the eigenvalue vector and the matrix whose columns are the
eigenvectors, eigenvalues ascending. -/
structure Kernel (n : ℕ) where
  eigvalsh : Mat n → Vec n
  eigh : Matrix (Fin (n + 1)) (Fin (n + 1)) ℝ →
    (Fin (n + 1) → ℝ) × Matrix (Fin (n + 1)) (Fin (n + 1)) ℝ
  findroot : (ℝ → ℝ) → ℝ → ℝ
  solve : Mat n → Vec n → Vec n

/-- The augmented RFO matrix of berny.py lines 155–156:
`np.vstack((np.hstack((H, g[:, None])), np.hstack((g, 0))[None, :]))`. -/
def rfoMatrix {n : ℕ} (H : Mat n) (g : Vec n) :
    Matrix (Fin (n + 1)) (Fin (n + 1)) ℝ :=
  Matrix.of fun i j =>
    if hi : (i : ℕ) < n then
      if hj : (j : ℕ) < n then H ⟨i, hi⟩ ⟨j, hj⟩ else g ⟨i, hi⟩
    else if hj : (j : ℕ) < n then g ⟨j, hj⟩ else 0

/-- Embeds berny.py `quadratic_step` (lines 153–177): pure RFO step when its norm is
within the trust radius, otherwise minimization on the trust sphere via the
secular equation; both branches set `on_sphere = False` (lines 162 and 168). -/
def quadratic_step {n : ℕ} [NeZero n] (K : Kernel n)
    (g : Vec n) (H : Mat n) (w : Vec n) (trust : ℝ) : Vec n × ℝ × Bool :=
  let ev := K.eigvalsh ((2 : ℝ)⁻¹ • (H + H.transpose))
  let rfo := rfoMatrix H g
  let DV := K.eigh ((2 : ℝ)⁻¹ • (rfo + rfo.transpose))
  let V := DV.2
  let dq : Vec n := fun i => V i.castSucc 0 / V (Fin.last n) 0
  if vnorm dq ≤ trust then
    (dq, g ⬝ᵥ dq + 0.5 * (dq ⬝ᵥ H.mulVec dq), false)
  else
    let steplength : ℝ → ℝ :=
      fun l => vnorm (K.solve (l • (1 : Mat n) - H) g) - trust
    let l := K.findroot steplength (ev 0)
    let dq2 := K.solve (l • (1 : Mat n) - H) g
    (dq2, g ⬝ᵥ dq2 + 0.5 * (dq2 ⬝ᵥ H.mulVec dq2), false)

/-- A cell of one of the heterogeneous criterion tuples built by berny.py
`converged` (lines 181–189): a name, a float, or the literal `False` of the
on-sphere criterion. -/
inductive Cell where
  | str (s : String)
  | num (x : ℝ)
  | boolVal (b : Bool)

/-- One pass of the criterion loop of berny.py `converged` (lines 192–203):
`result = crit[1] < crit[2]` for the 3-tuples, `result = crit[2]` for the
2-tuple; indexing past the end of a tuple (Python `IndexError`) or comparing
cells of the wrong kind (Python `TypeError`) is `none`. -/
def critResult (crit : List Cell) : Option Bool :=
  if 2 < crit.length then
    match crit.get? 1, crit.get? 2 with
    | some (Cell.num a), some (Cell.num b) => some (decide (a < b))
    | _, _ => none
  else
    match crit.get? 2 with
    | some (Cell.boolVal b) => some b
    | _ => none

/-- The `all_matched` accumulation of berny.py `converged` (lines 191–203). -/
def allMatched : List (List Cell) → Option Bool
  | [] => some true
  | c :: rest =>
    match critResult c, allMatched rest with
    | some r, some a => some (a && r)
    | _, _ => none

/-- Embeds berny.py `converged` (lines 180–206); `forces` is the raw Cartesian
gradient (length `m`), `step` the internal-coordinate step (length `n`). -/
def converged {m n : ℕ} [NeZero m] [NeZero n]
    (forces : Vec m) (step : Vec n) (on_sphere : Bool) (p : Params) :
    Option Bool :=
  let criteria : List (List Cell) :=
    [[Cell.str "Gradient RMS", Cell.num (rms forces), Cell.num p.gradientrms],
     [Cell.str "Gradient maximum", Cell.num (vmaxAbs forces), Cell.num p.gradientmax]]
    ++ (if on_sphere then
          [[Cell.str "Minimization on sphere", Cell.boolVal false]]
        else
          [[Cell.str "Step RMS", Cell.num (rms step), Cell.num p.steprms],
           [Cell.str "Step maximum", Cell.num (vmaxAbs step), Cell.num p.stepmax]])
  allMatched criteria

/-- Embeds berny.py `PESPoint` (line 104) in the shape used on the main path: `q`,
`E`, `g` all present (the source stores `None` in fields it never reads
again; such fields are simply not read in the embedding either). -/
structure PESPoint (n : ℕ) where
  q : Vec n
  E : ℝ
  g : Vec n

/-- Embeds berny.py lines 57–71, the interpolation part of the loop body: after the
first iteration, a line search between `current` and `best` along
`dq = best.q − current.q` produces `interpolated`; on the first iteration
`interpolated = current`. -/
def interpolate_point {n : ℕ}
    (fit_quartic fit_cubic : ℝ → ℝ → ℝ → ℝ → Option (ℝ × ℝ))
    (nsteps : ℕ) (current best : PESPoint n) : PESPoint n :=
  if 1 < nsteps then
    let dq := best.q - current.q
    let tE := linear_search fit_quartic fit_cubic current.E best.E
      (current.g ⬝ᵥ dq) (best.g ⬝ᵥ dq)
    ⟨current.q + tE.1 • dq, tE.2, tE.1 • best.g + (1 - tE.1) • current.g⟩
  else current

/-- Outcome of one pass of the engine loop (spec §4.1): continue with a new
geometry, or stop through the convergence break (lines 97–98) or the
step-budget break (lines 47–48). -/
inductive Outcome (G : Type) where
  | next (geom : G)
  | converged_ (geom : G)
  | exhausted

/-- The external collaborators used by the loop body of `Berny`
(`InternalCoords` from geomlib and `Math.ginv`, neither under `src/`),
together with the eigensolver kernel and the fit primitives; `m` is the
Cartesian dimension, `n` = `len(coords)` the internal dimension, `G` the
geometry type.  `update_geom` mutates a copy of the geometry and returns the
realized internal coordinates; the embedding returns both. -/
structure Extern (G : Type) (m n : ℕ) where
  eval_geom : G → Vec n
  b_matrix : G → Matrix (Fin n) (Fin m) ℝ
  ginv : Matrix (Fin n) (Fin m) ℝ → Matrix (Fin m) (Fin n) ℝ
  update_geom : G → Vec n → Vec n → Matrix (Fin m) (Fin n) ℝ → G × Vec n
  weights : Vec n
  kernel : Kernel n
  fit_quartic : ℝ → ℝ → ℝ → ℝ → Option (ℝ × ℝ)
  fit_cubic : ℝ → ℝ → ℝ → ℝ → Option (ℝ × ℝ)

/-- The loop-carried state of the `Berny` generator (lines 33–41, 99–101).
The source initializes `best`, `previous`, `predicted`, `interpolated` to
`None` and never reads them before the paths that assign them; the embedding
carries them as plain fields whose initial values are never consulted on
those paths.  `predicted` has no gradient in the source (`g=None`), so only
its `q` and `E` components are carried. -/
structure EngineState (G : Type) (n : ℕ) where
  geom : G
  nsteps : ℕ
  trust : ℝ
  hessian : Mat n
  best : PESPoint n
  previous : PESPoint n
  predictedQ : Vec n
  predictedE : ℝ
  interpolated : PESPoint n

/-- Embeds berny.py lines 50–56: the current PES point, with the Cartesian gradient
projected into internal coordinates through `dot(B_inv.T, gradients)`. -/
def currentPoint {G : Type} {m n : ℕ} (ext : Extern G m n)
    (geom : G) (energy : ℝ) (gradients : Vec m) : PESPoint n :=
  ⟨ext.eval_geom geom, energy,
    (ext.ginv (ext.b_matrix geom)).transpose.mulVec gradients⟩

/-- One pass of the `while True` loop body of berny.py `Berny` (lines 43–101),
driven by one `(energy, gradients)` evaluation: the step-budget check
(lines 46–48), the Hessian/trust/interpolation updates (57–71), the projected
quadratic step (72–78), the geometry update (81–83), the convergence break
(97–98) and the `previous`/`best` bookkeeping (99–101).  A `none` result is a
Python exception escaping the loop body.  The debug-trace write (84–96) is
I/O and is modelled separately (`encode`). -/
def bernyStep {G : Type} {m n : ℕ} [NeZero m] [NeZero n]
    (ext : Extern G m n) (p : Params) (st : EngineState G n)
    (energy : ℝ) (gradients : Vec m) :
    Option (Outcome G × EngineState G n) :=
  let nsteps := st.nsteps + 1
  if p.maxsteps < nsteps then
    some (Outcome.exhausted, { st with nsteps := nsteps })
  else
    let B := ext.b_matrix st.geom
    let B_inv := ext.ginv B
    let current := currentPoint ext st.geom energy gradients
    let hessian := if 1 < nsteps then
        update_hessian st.hessian (current.q - st.best.q) (current.g - st.best.g)
      else st.hessian
    let trust := if 1 < nsteps then
        update_trust st.trust (current.E - st.previous.E)
          (st.predictedE - st.interpolated.E) (st.predictedQ - st.interpolated.q)
      else st.trust
    let interpolated :=
      interpolate_point ext.fit_quartic ext.fit_cubic nsteps current st.best
    let proj := B * B_inv
    let hessian_proj := proj * hessian * proj + (1000 : ℝ) • ((1 : Mat n) - proj)
    let qs := quadratic_step ext.kernel (proj.mulVec interpolated.g)
      hessian_proj ext.weights trust
    let predictedQ := interpolated.q + qs.1
    let predictedE := interpolated.E + qs.2.1
    let gu := ext.update_geom st.geom current.q (predictedQ - current.q) B_inv
    match converged gradients (gu.2 - current.q) qs.2.2 p with
    | none => none
    | some true =>
      some (Outcome.converged_ gu.1,
        { st with geom := gu.1, nsteps := nsteps, trust := trust,
                  hessian := hessian, predictedQ := predictedQ,
                  predictedE := predictedE, interpolated := interpolated })
    | some false =>
      some (Outcome.next gu.1,
        { geom := gu.1, nsteps := nsteps, trust := trust, hessian := hessian,
          best := if nsteps = 1 ∨ current.E < st.best.E then current else st.best,
          previous := current, predictedQ := predictedQ,
          predictedE := predictedE, interpolated := interpolated })

/-- Classifier for one loop pass: 0 = exception, 1 = continue, 2 = converged
break, 3 = step-budget (exhausted) break. -/
def stepKind {G : Type} {n : ℕ} : Option (Outcome G × EngineState G n) → ℕ
  | none => 0
  | some (Outcome.next _, _) => 1
  | some (Outcome.converged_ _, _) => 2
  | some (Outcome.exhausted, _) => 3

/-- Python values appearing in a debug record (berny.py lines 85–94):
floats (with IEEE NaN distinguished, since `json` treats it specially),
ints, strings, numpy arrays, plain lists and dicts. -/
inductive PyVal where
  | float (x : ℝ)
  | nanFloat
  | int (k : ℤ)
  | str (s : String)
  | ndarray (elems : List PyVal)
  | pylist (elems : List PyVal)
  | dict (entries : List (String × PyVal))

/-- JSON output values; `nanLit` is the non-standard literal `NaN` emitted by
the Python json encoder for non-finite floats, distinct from `null`. -/
inductive JVal where
  | num (x : ℝ)
  | intNum (k : ℤ)
  | str (s : String)
  | null
  | nanLit
  | arr (elems : List JVal)
  | obj (entries : List (String × JVal))

mutual

/-- Modelled from the spec (§6) and the contract of the Python `json` module:
`json.dump(..., cls=ArrayEncoder)` serializes floats natively — an IEEE NaN
float (`np.nan` included: it is a `float` instance) is emitted as the literal
`NaN`, `allow_nan` defaulting to true — and invokes `ArrayEncoder.default`
(berny.py lines 209–216) only for objects the base encoder cannot serialize:
here numpy arrays, for which `default` returns `obj.tolist()`, a nested
Python list.  The `obj is np.nan` branch of `default`, which returns `None`
(JSON `null`), is therefore never reached for float values.  `none` models a
serialization `TypeError`. -/
def encode : PyVal → Option JVal
  | PyVal.float x => some (JVal.num x)
  | PyVal.nanFloat => some JVal.nanLit
  | PyVal.int k => some (JVal.intNum k)
  | PyVal.str s => some (JVal.str s)
  | PyVal.ndarray xs => (encodeList xs).map JVal.arr
  | PyVal.pylist xs => (encodeList xs).map JVal.arr
  | PyVal.dict es => (encodeEntries es).map JVal.obj

/-- Elementwise serialization of a Python list. -/
def encodeList : List PyVal → Option (List JVal)
  | [] => some []
  | x :: xs =>
    match encode x, encodeList xs with
    | some j, some js => some (j :: js)
    | _, _ => none

/-- Entrywise serialization of a Python dict. -/
def encodeEntries : List (String × PyVal) → Option (List (String × JVal))
  | [] => some []
  | (k, v) :: es =>
    match encode v, encodeEntries es with
    | some j, some js => some ((k, j) :: js)
    | _, _ => none

end

/-- A trivial eigensolver kernel used to evaluate the embedding at concrete
inputs. -/
def trivialKernel : Kernel 1 where
  eigvalsh := fun _ _ => 0
  eigh := fun _ => (fun _ => 0, fun _ _ => 1)
  findroot := fun _ x => x
  solve := fun _ _ _ => 0

/-- A trivial set of external collaborators over a unit geometry type, used
to evaluate the embedded loop body at concrete inputs. -/
def extTrivial : Extern Unit 1 1 where
  eval_geom := fun _ _ => 0
  b_matrix := fun _ => 0
  ginv := fun _ => 0
  update_geom := fun _ _ _ _ => ((), fun _ => 0)
  weights := fun _ => 0
  kernel := trivialKernel
  fit_quartic := fun _ _ _ _ => none
  fit_cubic := fun _ _ _ _ => none

/-- A parameter set with `maxsteps = 1` whose negative thresholds no gradient
or step can ever satisfy (RMS and max-abs are nonnegative): a surface driven
with these parameters never converges. -/
def pNeg : Params where
  gradientmax := -1
  gradientrms := -1
  stepmax := -1
  steprms := -1
  maxsteps := 1
  trust := 0.3

/-- A concrete zero PES point. -/
def pt0 : PESPoint 1 := ⟨fun _ => 0, 0, fun _ => 0⟩

/-- A concrete engine state with iteration counter 0. -/
def st0 : EngineState Unit 1 :=
  ⟨(), 0, 0.3, 1, pt0, pt0, fun _ => 0, 0, pt0⟩

/-- A concrete engine state with iteration counter 1. -/
def st1 : EngineState Unit 1 := { st0 with nsteps := 1 }

/-! ## Helper lemmas -/

theorem rms_nonneg {n : ℕ} (v : Vec n) : 0 ≤ rms v :=
  Real.sqrt_nonneg _

theorem vnorm_nonneg {n : ℕ} (v : Vec n) : 0 ≤ vnorm v :=
  Real.sqrt_nonneg _

theorem vnorm_pos {n : ℕ} {v : Vec n} (h : v ≠ 0) : 0 < vnorm v := by
  have ⟨i, hi⟩ : ∃ i, v i ≠ 0 := Function.ne_iff.mp h
  refine Real.sqrt_pos.mpr ?_
  refine Finset.sum_pos' (fun j _ => sq_nonneg (v j)) ⟨i, Finset.mem_univ i, ?_⟩
  exact pow_two_pos_of_ne_zero hi

theorem transpose_vecMulVec {n : ℕ} (a b : Vec n) :
    (vecMulVec a b)ᵀ = vecMulVec b a := by
  ext i j
  simp [vecMulVec_apply, mul_comm]

theorem quadratic_step_flag {n : ℕ} [NeZero n] (K : Kernel n)
    (g : Vec n) (H : Mat n) (w : Vec n) (trust : ℝ) :
    (quadratic_step K g H w trust).2.2 = false := by
  simp only [quadratic_step]
  split <;> rfl

theorem converged_neg_thresholds {m n : ℕ} [NeZero m] [NeZero n]
    (g : Vec m) (s : Vec n) : converged g s false pNeg = some false := by
  have h1 : decide (rms g < pNeg.gradientrms) = false := by
    refine decide_eq_false (not_lt.mpr ?_)
    calc pNeg.gradientrms = -1 := rfl
    _ ≤ 0 := by norm_num
    _ ≤ rms g := rms_nonneg g
  simp [converged, allMatched, critResult, h1]

/-! ## C1 -/

/-- C1: `quadratic_step` returns `on_sphere = false` in both of its branches
(berny.py lines 162 and 168): when the unconstrained RFO step satisfies its
norm bound, and also when the sphere-constrained minimization is performed,
the returned flag is `false`, so the solver never returns `on_sphere = true`. -/
theorem quadratic_step_never_on_sphere {n : ℕ} [NeZero n] (K : Kernel n)
    (g : Vec n) (H : Mat n) (w : Vec n) (trust : ℝ) :
    (quadratic_step K g H w trust).2.2 = false :=
  quadratic_step_flag K g H w trust

/-- Witness for C1 at a concrete kernel and input. -/
theorem quadratic_step_never_on_sphere_witness :
    (quadratic_step trivialKernel (fun _ => 0) 1 (fun _ => 0) 1).2.2 = false :=
  quadratic_step_never_on_sphere trivialKernel (fun _ => 0) 1 (fun _ => 0) 1

/-! ## C2 -/

/-- C2 counterexample: at `H = 1`, `Δq = [0]`, `Δg = [1]` both denominators
`Δq·Δg` and `Δq·H·Δq` are zero, yet the source `update_hessian` has no check
and no error path at all: it unconditionally computes and returns an updated
matrix, while the spec's checked updater fails with `DegenerateUpdate`. -/
theorem update_hessian_no_degenerate_check :
    ((fun _ : Fin 1 => (0:ℝ)) ⬝ᵥ (fun _ : Fin 1 => (1:ℝ)) = 0) ∧
    update_hessian (1 : Mat 1) (fun _ => 0) (fun _ => 1) = 1 ∧
    update_hessianChecked (1 : Mat 1) (fun _ => 0) (fun _ => 1) =
      Except.error "DegenerateUpdate" := by
  have h0 : (fun _ : Fin 1 => (0:ℝ)) = 0 := rfl
  have hd : (fun _ : Fin 1 => (0:ℝ)) ⬝ᵥ (fun _ : Fin 1 => (1:ℝ)) = 0 := by
    rw [h0, zero_dotProduct]
  refine ⟨hd, ?_, ?_⟩
  · unfold update_hessian
    rw [hd]
    have hd2 : (fun _ : Fin 1 => (0:ℝ)) ⬝ᵥ (1 : Mat 1).mulVec (fun _ => 0) = 0 := by
      rw [h0, zero_dotProduct]
    rw [hd2]
    simp
  · unfold update_hessianChecked
    rw [if_pos (Or.inl hd)]

/-- C2 amended: `update_hessian` checks neither denominator and raises no
DegenerateUpdate error; it performs the BFGS update unconditionally, agreeing
with the spec's checked updater exactly on non-degenerate inputs (on a
degenerate input it divides by zero instead of failing). -/
theorem update_hessianChecked_ok {n : ℕ} (H : Mat n) (dq dg : Vec n)
    (h1 : dq ⬝ᵥ dg ≠ 0) (h2 : dq ⬝ᵥ H.mulVec dq ≠ 0) :
    update_hessianChecked H dq dg = Except.ok (update_hessian H dq dg) := by
  unfold update_hessianChecked
  rw [if_neg]
  push_neg
  exact ⟨h1, h2⟩

/-- Witness for C2's amended theorem at a concrete non-degenerate input. -/
theorem update_hessianChecked_ok_witness :
    update_hessianChecked (1 : Mat 1) (fun _ => 1) (fun _ => 1) =
      Except.ok (update_hessian (1 : Mat 1) (fun _ => 1) (fun _ => 1)) := by
  have h1 : (fun _ : Fin 1 => (1:ℝ)) ⬝ᵥ (fun _ : Fin 1 => (1:ℝ)) ≠ 0 := by
    simp [dotProduct, Fin.sum_univ_one]
  have h2 : (fun _ : Fin 1 => (1:ℝ)) ⬝ᵥ (1 : Mat 1).mulVec (fun _ => 1) ≠ 0 := by
    simp [dotProduct, Fin.sum_univ_one, Matrix.one_mulVec]
  exact update_hessianChecked_ok 1 (fun _ => 1) (fun _ => 1) h1 h2

/-! ## C3 -/

/-- C3: evaluating `converged` with `on_sphere = true` reaches the 2-tuple
criterion `('Minimization on sphere', False)` and the loop body's
`result = crit[2]` (berny.py line 197) indexes past the end of that tuple:
at gradient `[0]`, step `[0]` and the default thresholds the call fails with
a Python `IndexError` (modelled as `none`) instead of returning the intended
fixed `False` result. -/
theorem converged_on_sphere_indexerror :
    converged (fun _ : Fin 1 => (0:ℝ)) (fun _ : Fin 1 => (0:ℝ)) true defaults
      = none := by
  simp [converged, allMatched, critResult]

/-! ## C4 -/

/-- C4: with `maxsteps = 1` on a surface that never satisfies the convergence
thresholds, a pass starting from counter 0 performs one full step and
continues; the next pass increments the counter at its very start (berny.py
line 46) and, the counter now exceeding the budget, terminates exhausted with
no further computation — its result is a pure function of the incoming state,
independent of the evaluation and of every external collaborator; and no pass
ever terminates converged. -/
theorem bernyStep_maxsteps_one_exhausts {G : Type} {m n : ℕ} [NeZero m] [NeZero n]
    (ext : Extern G m n) (p : Params) (hmax : p.maxsteps = 1)
    (hconv : ∀ (g : Vec m) (s : Vec n), converged g s false p = some false) :
    (∀ (st : EngineState G n) (e : ℝ) (grad : Vec m), st.nsteps = 0 →
      stepKind (bernyStep ext p st e grad) = 1) ∧
    (∀ (st : EngineState G n) (e : ℝ) (grad : Vec m), st.nsteps = 1 →
      bernyStep ext p st e grad =
        some (Outcome.exhausted, { st with nsteps := 2 })) ∧
    (∀ (st : EngineState G n) (e : ℝ) (grad : Vec m),
      stepKind (bernyStep ext p st e grad) ≠ 2) := by
  refine ⟨?_, ?_, ?_⟩
  · intro st e grad h0
    simp only [bernyStep, h0, hmax, quadratic_step_flag, hconv]
    norm_num [stepKind]
  · intro st e grad h1
    simp only [bernyStep, h1, hmax]
    norm_num
  · intro st e grad
    simp only [bernyStep, quadratic_step_flag, hconv]
    split
    · simp [stepKind]
    · simp [stepKind]

/-- Witness for C4 at the trivial collaborators, `maxsteps = 1` and the
never-satisfiable negative thresholds. -/
theorem bernyStep_maxsteps_one_exhausts_witness :
    stepKind (bernyStep extTrivial pNeg st0 0 (fun _ => 0)) = 1 ∧
    bernyStep extTrivial pNeg st1 0 (fun _ => 0) =
      some (Outcome.exhausted, { st1 with nsteps := 2 }) ∧
    stepKind (bernyStep extTrivial pNeg st1 0 (fun _ => 0)) ≠ 2 := by
  obtain ⟨h1, h2, h3⟩ :=
    bernyStep_maxsteps_one_exhausts extTrivial pNeg rfl
      (fun g s => converged_neg_thresholds g s)
  exact ⟨h1 st0 0 (fun _ => 0) rfl, h2 st1 0 (fun _ => 0) rfl, h3 st1 0 (fun _ => 0)⟩

/-! ## C5 -/

/-- C5: `update_trust` implements exactly the trust policy as the spec states
it: `r = ΔE_actual/ΔE_predicted` except `r := 1` when `ΔE_actual == 0`;
`‖Δq‖/4` when `r < 0.25`; `2·trust` when `r > 0.75` and
`|‖Δq‖ − trust| < 1e-10`; otherwise the trust radius is unchanged. -/
theorem update_trust_eq_spec {n : ℕ} (trust dE dE_predicted : ℝ) (dq : Vec n) :
    update_trust trust dE dE_predicted dq =
      TrustControllerSpec trust dE dE_predicted dq := by
  by_cases h : dE = 0 <;> simp [update_trust, TrustControllerSpec, h]

/-! ## C6 -/

/-- C6 counterexample: at `trust = 0.3 > 0`, `ΔE_actual = −1`,
`ΔE_predicted = 1` (so `r = −1 < 0.25`) and the zero-length step,
`update_trust` returns `‖0‖/4 = 0`, which is not strictly positive. -/
theorem update_trust_not_pos_at_zero_step :
    (0:ℝ) < 0.3 ∧
    update_trust (0.3:ℝ) (-1) 1 (fun _ : Fin 1 => (0:ℝ)) = 0 := by
  refine ⟨by norm_num, ?_⟩
  simp only [update_trust]
  rw [if_pos (by norm_num : ((-1:ℝ) ≠ 0))]
  rw [if_pos (by norm_num : (-1:ℝ)/1 < 0.25)]
  have h0 : (fun _ : Fin 1 => (0:ℝ)) = 0 := rfl
  simp [h0, vnorm]

/-- C6 amended: for every input with strictly positive trust and a nonzero
step `Δq`, `update_trust` returns a strictly positive value; positivity fails
only for the zero-length `Δq`, where the shrink branch returns `‖0‖/4 = 0`. -/
theorem update_trust_pos {n : ℕ} (trust dE dE_predicted : ℝ) (dq : Vec n)
    (htrust : 0 < trust) (hdq : dq ≠ 0) :
    0 < update_trust trust dE dE_predicted dq := by
  have hv : 0 < vnorm dq := vnorm_pos hdq
  simp only [update_trust]
  repeat' split
  all_goals first
    | exact div_pos hv (by norm_num)
    | linarith

/-- Witness for C6's amended theorem at a concrete positive trust and a
nonzero step. -/
theorem update_trust_pos_witness :
    (0:ℝ) < 1 ∧ (fun _ : Fin 1 => (1:ℝ)) ≠ 0 ∧
    0 < update_trust (1:ℝ) (-1) 1 (fun _ : Fin 1 => (1:ℝ)) := by
  have hne : (fun _ : Fin 1 => (1:ℝ)) ≠ 0 := by
    intro h
    exact one_ne_zero (congrFun h 0)
  exact ⟨by norm_num, hne, update_trust_pos 1 (-1) 1 (fun _ => 1) (by norm_num) hne⟩

/-! ## C7 -/

theorem reject_ite {α : Type} (lo hi t : ℝ) (x y : α) :
    (if t < lo ∨ t > hi then y else x) = (if lo ≤ t ∧ t ≤ hi then x else y) := by
  by_cases h : lo ≤ t ∧ t ≤ hi
  · rw [if_neg (not_or.mpr ⟨not_lt.mpr h.1, not_lt.mpr h.2⟩), if_pos h]
  · rw [if_pos ?_, if_neg h]
    rcases lt_or_ge t lo with hl | hl
    · exact Or.inl hl
    · refine Or.inr ?_
      by_contra hh
      exact h ⟨hl, not_lt.mp hh⟩

/-- C7: `linear_search` returns the quartic-fit extremum exactly when the
quartic fit succeeds with `t ∈ [-1, 2]`; otherwise the cubic-fit extremum
exactly when the cubic fit succeeds with `t ∈ [0, 1]`; otherwise `(0, E0)`
when `E0 ≤ E1` and `(1, E1)` when `E0 > E1` — i.e. it coincides with the
spec's LineSearchInterpolator contract for every pair of fit primitives. -/
theorem linear_search_eq_spec
    (fit_quartic fit_cubic : ℝ → ℝ → ℝ → ℝ → Option (ℝ × ℝ))
    (E0 E1 g0 g1 : ℝ) :
    linear_search fit_quartic fit_cubic E0 E1 g0 g1 =
      LineSearchSpec fit_quartic fit_cubic E0 E1 g0 g1 := by
  unfold linear_search LineSearchSpec
  cases hq : fit_quartic E0 E1 g0 g1 with
  | none =>
    dsimp only
    cases hc : fit_cubic E0 E1 g0 g1 with
    | none => rfl
    | some c =>
      obtain ⟨t, E⟩ := c
      dsimp only
      exact reject_ite 0 1 t _ _
  | some q =>
    obtain ⟨t, E⟩ := q
    dsimp only
    rw [reject_ite (-1) 2 t]
    by_cases h : -1 ≤ t ∧ t ≤ 2
    · rw [if_pos h, if_pos h]
    · rw [if_neg h, if_neg h]
      cases hc : fit_cubic E0 E1 g0 g1 with
      | none => rfl
      | some c =>
        obtain ⟨t2, E2⟩ := c
        dsimp only
        exact reject_ite 0 1 t2 _ _

/-! ## C8 -/

/-- C8: for every symmetric `H` and every `(Δq, Δg)` with `Δq·Δg ≠ 0` and
`Δq·H·Δq ≠ 0`, the matrix produced by the BFGS update of `update_hessian`
is again symmetric. -/
theorem update_hessian_isSymm {n : ℕ} (H : Mat n) (dq dg : Vec n)
    (hH : H.IsSymm) (h1 : dq ⬝ᵥ dg ≠ 0) (h2 : dq ⬝ᵥ H.mulVec dq ≠ 0) :
    (update_hessian H dq dg).IsSymm := by
  have hHt : Hᵀ = H := hH
  unfold Matrix.IsSymm update_hessian
  simp [Matrix.transpose_add, Matrix.transpose_sub, Matrix.transpose_smul,
    Matrix.transpose_mul, transpose_vecMulVec, hHt, Matrix.mul_assoc]

/-- Witness for C8 at the concrete symmetric `H = 1`, `Δq = Δg = [1]`. -/
theorem update_hessian_isSymm_witness :
    (1 : Mat 1).IsSymm ∧
    ((fun _ : Fin 1 => (1:ℝ)) ⬝ᵥ (fun _ : Fin 1 => (1:ℝ)) ≠ 0) ∧
    (update_hessian (1 : Mat 1) (fun _ => 1) (fun _ => 1)).IsSymm := by
  have h1 : (fun _ : Fin 1 => (1:ℝ)) ⬝ᵥ (fun _ : Fin 1 => (1:ℝ)) ≠ 0 := by
    simp [dotProduct, Fin.sum_univ_one]
  have h2 : (fun _ : Fin 1 => (1:ℝ)) ⬝ᵥ (1 : Mat 1).mulVec (fun _ => 1) ≠ 0 := by
    simp [dotProduct, Fin.sum_univ_one, Matrix.one_mulVec]
  exact ⟨Matrix.isSymm_one,  h1,
    update_hessian_isSymm 1 (fun _ => 1) (fun _ => 1) Matrix.isSymm_one h1 h2⟩

/-! ## C9 -/

/-- C9: a debug record holding an IEEE NaN float serializes with the
non-standard literal `NaN`, not `null`: the base json encoder handles float
values itself (`allow_nan` is true by default) and never hands them to
`ArrayEncoder.default`, so the `obj is np.nan` branch returning `None`
(berny.py lines 211–212) is unreachable and the intended null-serialization
never happens. -/
theorem encode_nan_not_null :
    encode (PyVal.dict [( "energy", PyVal.nanFloat)]) =
      some (JVal.obj [( "energy", JVal.nanLit)]) ∧
    JVal.nanLit ≠ JVal.null := by
  refine ⟨?_, ?_⟩
  · simp [encode, encodeEntries]
  · intro h
    exact JVal.noConfusion h

/-! ## C10 -/

/-- C10: after the first iteration (`nsteps > 1`) the interpolated point is
`⟨current.q + t·(best.q − current.q), E, t·best.g + (1 − t)·current.g⟩` with
`(t, E)` the line-search result at the endpoint energies `(current.E, best.E)`
and the directional derivatives `current.g·(best.q − current.q)` and
`best.g·(best.q − current.q)`; on the first iteration (`nsteps = 1`) the
interpolated point is the current point. -/
theorem interpolate_point_formula {n : ℕ}
    (fit_quartic fit_cubic : ℝ → ℝ → ℝ → ℝ → Option (ℝ × ℝ))
    (nsteps : ℕ) (current best : PESPoint n) (h : 1 < nsteps) :
    interpolate_point fit_quartic fit_cubic nsteps current best =
      ⟨current.q +
          (linear_search fit_quartic fit_cubic current.E best.E
            (current.g ⬝ᵥ (best.q - current.q))
            (best.g ⬝ᵥ (best.q - current.q))).1 • (best.q - current.q),
        (linear_search fit_quartic fit_cubic current.E best.E
          (current.g ⬝ᵥ (best.q - current.q))
          (best.g ⬝ᵥ (best.q - current.q))).2,
        (linear_search fit_quartic fit_cubic current.E best.E
          (current.g ⬝ᵥ (best.q - current.q))
          (best.g ⬝ᵥ (best.q - current.q))).1 • best.g +
          (1 - (linear_search fit_quartic fit_cubic current.E best.E
            (current.g ⬝ᵥ (best.q - current.q))
            (best.g ⬝ᵥ (best.q - current.q))).1) • current.g⟩ ∧
    interpolate_point fit_quartic fit_cubic 1 current best = current := by
  constructor
  · simp only [interpolate_point]
    rw [if_pos h]
  · simp only [interpolate_point]
    rw [if_neg (by norm_num)]

/-- Witness for C10 on the second iteration at concrete points with both
fits failing. -/
theorem interpolate_point_formula_witness :
    interpolate_point (fun _ _ _ _ => none) (fun _ _ _ _ => none) 2 pt0
        ⟨fun _ => 0, 1, fun _ => 0⟩ =
      ⟨pt0.q +
          (linear_search (fun _ _ _ _ => none) (fun _ _ _ _ => none) pt0.E 1
            (pt0.g ⬝ᵥ ((fun _ : Fin 1 => (0:ℝ)) - pt0.q))
            ((fun _ : Fin 1 => (0:ℝ)) ⬝ᵥ ((fun _ : Fin 1 => (0:ℝ)) - pt0.q))).1 •
            ((fun _ : Fin 1 => (0:ℝ)) - pt0.q),
        (linear_search (fun _ _ _ _ => none) (fun _ _ _ _ => none) pt0.E 1
          (pt0.g ⬝ᵥ ((fun _ : Fin 1 => (0:ℝ)) - pt0.q))
          ((fun _ : Fin 1 => (0:ℝ)) ⬝ᵥ ((fun _ : Fin 1 => (0:ℝ)) - pt0.q))).2,
        (linear_search (fun _ _ _ _ => none) (fun _ _ _ _ => none) pt0.E 1
          (pt0.g ⬝ᵥ ((fun _ : Fin 1 => (0:ℝ)) - pt0.q))
          ((fun _ : Fin 1 => (0:ℝ)) ⬝ᵥ ((fun _ : Fin 1 => (0:ℝ)) - pt0.q))).1 •
          (fun _ : Fin 1 => (0:ℝ)) +
          (1 - (linear_search (fun _ _ _ _ => none) (fun _ _ _ _ => none) pt0.E 1
            (pt0.g ⬝ᵥ ((fun _ : Fin 1 => (0:ℝ)) - pt0.q))
            ((fun _ : Fin 1 => (0:ℝ)) ⬝ᵥ ((fun _ : Fin 1 => (0:ℝ)) - pt0.q))).1) •
            pt0.g⟩ ∧
    interpolate_point (fun _ _ _ _ => none) (fun _ _ _ _ => none) 1 pt0
        ⟨fun _ => 0, 1, fun _ => 0⟩ = pt0 :=
  interpolate_point_formula (fun _ _ _ _ => none) (fun _ _ _ _ => none) 2 pt0
    ⟨fun _ => 0, 1, fun _ => 0⟩ (by norm_num)

end Berny

end
